import Mathlib

/-!
Verification of the stack-definition updater.

A shallow embedding of `stack-assets/stack-updater/update_stack_definition.py`.

The script keeps a stack definition (a JSON list of members, each holding a
`version_locator`) synchronized with the latest eligible releases of a
catalog service.  The pure decision logic is embedded here:

* `get_latest_valid_version` — the update selector (sort candidates by
  `state.current_entered` descending, return the first one with
  `can_update` and `state.current == "consumable"`);
* `get_version_updates` — the flavor filter over the raw service response;
* `processMember` — the per-member pipeline of the `__main__` loop
  (parse locator → fetch version → extract descriptor → fetch updates →
  select → compare/mutate), with failures returned instead of appended to
  a global list;
* `runMembers` — the loop over all members, accumulating the mutated
  members, the `updates_made` flag and the failure messages.

Network calls (`service.get_version`, `service.get_offering_updates`,
token retrieval) are modelled by an oracle `Env`; a `none` answer stands
for the Python functions returning `None` after catching an exception.
Python dictionaries are modelled by structures whose fields are `Option`s
exactly where the script's accesses tolerate (or raise on) a missing key.
Timestamps (`state.current_entered`) are modelled as naturals: the script
only compares them with Python's `<` through `sorted`.  Python's
`sorted(..., reverse=True)` is a stable descending sort, which is modelled
by `List.mergeSort` with the reflexive total order `enteredLE` (a stable
sort with respect to a total preorder is unique, so the model is exact).
Failure-message interpolations of Python reprs are elided; the stable
message prefixes are kept.
-/

/-- The lifecycle `state` object of an update candidate.  `current` is the
status string (e.g. "consumable", "deprecated"); `current_entered` is the
timestamp at which the status took effect, `none` when the key is absent
(in which case the Python sort key `x["state"]["current_entered"]` raises
`KeyError`). -/
structure UState where
  current : String
  current_entered : Option Nat
deriving DecidableEq

/-- The `flavor` object of an update candidate.  `name = none` models the
`"name"` key being absent, in which case `update["flavor"]["name"]` raises
`KeyError` inside `get_version_updates`. -/
structure Flavor where
  name : Option String
deriving DecidableEq

/-- An update candidate as returned by the catalog's update-listing call.
`flavor = none` models the `"flavor"` key being absent; `state = none`
models the `"state"` key being absent.  `version_locator` and `version`
are modelled as present (the script reads them with `.get`, and no claim
exercises their absence); likewise `can_update`. -/
structure Update where
  flavor : Option Flavor
  can_update : Bool
  state : Option UState
  version_locator : String
  version : String
deriving DecidableEq

/-- A version entry inside a kind of the fetched version metadata.
`version` is read with `.get` (absence flows on as `None`); `flavor`
absence makes `.get("flavor").get("name")` raise `AttributeError`. -/
structure VersionEntry where
  version : Option String
  flavor : Option Flavor
deriving DecidableEq

/-- A kind object of the fetched version metadata.  `format_kind` is read
with `.get` (absence flows on); `versions = none` models the `"versions"`
key being absent (subscripting `None` raises `TypeError`). -/
structure KindInfo where
  format_kind : Option String
  versions : Option (List VersionEntry)
deriving DecidableEq

/-- The metadata returned by `service.get_version`.  `id` is modelled as
present (the script defaults it with `.get("id", {})` and no claim
exercises its absence). -/
structure VersionInfo where
  id : String
  kinds : List KindInfo
deriving DecidableEq

/-- A stack member: a named entry holding a `version_locator`, plus the
other JSON fields, which the script never touches and must preserve. -/
structure Member where
  name : String
  version_locator : String
  extra : List (String × String)
deriving DecidableEq

/-- Oracle for the network calls.  `getVersion` models
`get_version(locator, api_key)` (`none` = the call raised and was caught,
returning `None`).  `getOfferingUpdates` models
`service.get_offering_updates(catalog_identifier, offering_id, kind,
x_auth_refresh_token).get_result()` together with the token plumbing
(`none` = the call raised). -/
structure Env where
  getVersion : String → Option VersionInfo
  getOfferingUpdates : String → String → Option String → Option (List Update)

/-- The sort key `x["state"]["current_entered"]`, as far as it is defined:
`none` when the `state` object or its `current_entered` key is missing. -/
def currentEntered? (u : Update) : Option Nat :=
  u.state.bind UState.current_entered

/-- The sort key used below, total on the candidates that survive the
`KeyError` guard (where `currentEntered?` is `some`). -/
def enteredKey (u : Update) : Nat :=
  (currentEntered? u).getD 0

/-- `a` may come before `b` in the descending order on
`state.current_entered` used by
`sorted(updates, key=lambda x: x["state"]["current_entered"], reverse=True)`. -/
def enteredLE (a b : Update) : Bool :=
  enteredKey b ≤ enteredKey a

/-- The eligibility test of the selector's scan:
`update["can_update"] and update["state"]["current"] == "consumable"`.
(When the scan runs, `state` is present — the sort above it would have
raised otherwise; a missing `state` is mapped to an empty status string,
which is never "consumable".) -/
def qualifies (u : Update) : Bool :=
  u.can_update && (((u.state.map UState.current).getD "") == "consumable")

/-- `get_latest_valid_version(updates)` (lines 74–89): sort the candidates
by `state.current_entered` descending (Python's `sorted` is stable and
computes the key of every element, so any candidate missing the key makes
the whole call raise `KeyError`, caught and turned into `None`); then
return the first candidate with `can_update` and
`state.current == "consumable"`, or `None` when none qualifies. -/
def get_latest_valid_version (updates : List Update) : Option Update :=
  if updates.all (fun u => (currentEntered? u).isSome) then
    (updates.mergeSort enteredLE).find? qualifies
  else
    none

/-- Does this candidate pass the flavor access without a `KeyError`?
(`update["flavor"]["name"]` is only evaluated when `"flavor" in
update.keys()`.) -/
def flavorAccessOk (u : Update) : Bool :=
  match u.flavor with
  | some fl => fl.name.isSome
  | none => true

/-- The flavor filter's test: `"flavor" in update.keys() and
update["flavor"]["name"] == flavor`.  The requested `flavor` is an
`Option String` because the script extracts it with `.get`, so Python
`None` can be requested (and then nothing with a string name matches). -/
def flavorMatches (flavor : Option String) (u : Update) : Bool :=
  match u.flavor with
  | some fl => fl.name == flavor
  | none => false

/-- `get_version_updates(offeringId, catalogId, kind, flavor, api_key)`
(lines 43–71): fetch the raw update list for the offering, then filter it
to the candidates whose flavor name equals the requested flavor.  If any
candidate has a `flavor` object without a `"name"` key, the comprehension
raises `KeyError`, which the function catches, returning `None` for the
whole call. -/
def get_version_updates (env : Env) (offeringId catalogId : String)
    (kind flavor : Option String) : Option (List Update) :=
  match env.getOfferingUpdates catalogId offeringId kind with
  | none => none
  | some response =>
    if response.all flavorAccessOk then
      some (response.filter (flavorMatches flavor))
    else
      none

/-- Split a character list on every occurrence of `sep`, keeping empty
parts, exactly as Python's `str.split(sep)` does on the characters:
`"a.b" ↦ ["a","b"]`, `"a.." ↦ ["a","",""]`, `"" ↦ [""]`.  The result is
always nonempty. -/
def splitParts (sep : Char) : List Char → List (List Char)
  | [] => [[]]
  | c :: cs =>
    match splitParts sep cs with
    | [] => [[]]
    | p :: ps => if c = sep then [] :: p :: ps else (c :: p) :: ps

/-- `s.split(".")` on a Python string, over the string's characters. -/
def splitDots (s : String) : List String :=
  (splitParts (Char.ofNat 46) s.toList).map List.asString

/-- `version_locator.split(".")` followed by the two-name unpacking
`catalogId, versionId = ...` (line 171): Python's `str.split(".")` splits
on every dot, and the unpacking raises `ValueError` unless the result has
exactly two parts (which may be empty strings). -/
def splitLocator (s : String) : Option (String × String) :=
  match splitDots s with
  | [a, b] => some (a, b)
  | _ => none

/-- Lines 182–192: read `kinds[0]`, its `format_kind`, `versions[0]`, the
version string and the flavor name of the current version.  `none` models
the accesses that raise (empty `kinds`, missing or empty `versions`,
missing `flavor` object), caught by the member loop's `except`;
the `.get` accesses (`format_kind`, `version`, `flavor["name"]` via
`.get("name")`) default to Python `None` and flow on as `Option`s. -/
def extractDescriptor (v : VersionInfo) :
    Option (Option String × Option String × Option String) :=
  match v.kinds with
  | [] => none
  | k :: _ =>
    match k.versions with
    | none => none
    | some [] => none
    | some (ve :: _) =>
      match ve.flavor with
      | none => none
      | some fl => some (k.format_kind, fl.name, ve.version)

/-- One iteration of the member loop (lines 166–230), as a function of the
member: returns the (possibly mutated) member, whether `updates_made` was
set by this member, and the failure message appended to `failures` (if
any).  Interpolated Python reprs in the messages are elided; the stable
prefixes are kept. -/
def processMember (env : Env) (m : Member) : Member × Bool × Option String :=
  match splitLocator m.version_locator with
  | none => (m, false, some ("Error updating member " ++ m.name))
  | some (catalogId, _versionId) =>
    match env.getVersion m.version_locator with
    | none =>
      (m, false,
        some ("Failed to get version for " ++ m.name ++ ": " ++ m.version_locator))
    | some version =>
      match extractDescriptor version with
      | none => (m, false, some ("Error updating member " ++ m.name))
      | some (kind, flavor, _currentVersion) =>
        match get_version_updates env version.id catalogId kind flavor with
        | none =>
          (m, false, some ("Failed to get version updates for " ++ version.id))
        | some updates =>
          match get_latest_valid_version updates with
          | none => (m, false, some "Failed to get latest valid version for ")
          | some latest =>
            if m.version_locator != latest.version_locator then
              ({ m with version_locator := latest.version_locator }, true, none)
            else
              (m, false, none)

/-- The aggregate state of one run: the members after the loop, the
`updates_made` flag, and the `failures` list in member order. -/
structure RunResult where
  members : List Member
  updates_made : Bool
  failures : List String
deriving DecidableEq

/-- The member loop (lines 164–230): process every member in order,
accumulating mutations, the `updates_made` flag and the failure list. -/
def runMembers (env : Env) : List Member → RunResult
  | [] => ⟨[], false, []⟩
  | m :: rest =>
    let r := processMember env m
    let rr := runMembers env rest
    ⟨r.1 :: rr.members, r.2.1 || rr.updates_made, r.2.2.toList ++ rr.failures⟩

/-- Lines 244–247: the run exits with status 1 exactly when the failure
list is nonempty, else (implicitly) 0. -/
def exitCode (r : RunResult) : Nat :=
  if r.failures.isEmpty then 0 else 1

/-! ## Concrete fixtures used by the witnesses and counterexamples -/

/-- A flavor object with a name, as in a well-formed catalog response. -/
def flavBasic : Flavor := ⟨some "basic"⟩

/-- A consumable, eligible candidate entered at time `t`. -/
def updConsumable (t : Nat) (loc ver : String) : Update :=
  ⟨some flavBasic, true, some ⟨"consumable", some t⟩, loc, ver⟩

/-- A deprecated (hence non-consumable) candidate entered at time `t`. -/
def updDeprecated (t : Nat) (loc ver : String) : Update :=
  ⟨some flavBasic, true, some ⟨"deprecated", some t⟩, loc, ver⟩

/-- A consumable candidate whose `state` object lacks `current_entered`. -/
def updNoStamp (loc : String) : Update :=
  ⟨some flavBasic, true, some ⟨"consumable", none⟩, loc, "9.9.9"⟩

/-- A candidate whose `flavor` object lacks the `"name"` key. -/
def updNoFlavorName (loc : String) : Update :=
  ⟨some ⟨none⟩, true, some ⟨"consumable", some 3⟩, loc, "1.2.3"⟩

/-- Version metadata whose first kind/version carries flavor "basic". -/
def verInfo (off ver : String) : VersionInfo :=
  ⟨off, [⟨some "terraform", some [⟨some ver, some flavBasic⟩]⟩]⟩

/-- An oracle answering every version lookup with `vi` and every
update-listing call with `ups`. -/
def envOf (vi : VersionInfo) (ups : List Update) : Env :=
  ⟨fun _ => some vi, fun _ _ _ => some ups⟩

/-- An oracle on which every network call fails. -/
def envFail : Env := ⟨fun _ => none, fun _ _ _ => none⟩

/-- A member with a well-formed locator and an extra field. -/
def memA : Member := ⟨"member-a", "c.v1", [("inputs", "x")]⟩

/-- A second member with a well-formed locator. -/
def memB : Member := ⟨"member-b", "c2.v7", []⟩

/-- A member whose locator has no separator at all. -/
def memBad : Member := ⟨"member-bad", "malformed", []⟩

/-- A member whose locator splits into two parts, the second empty. -/
def memDotted : Member := ⟨"member-dot", "cat123.", []⟩

/-- Oracle under which the selector finds no eligible update. -/
def envSelNone : Env := envOf (verInfo "off1" "1.0.0") [updDeprecated 5 "c.v2" "1.1.0"]

/-- Oracle whose only candidate has the member's version string but a new
locator. -/
def envSameVer : Env := envOf (verInfo "off1" "1.0.0") [updConsumable 5 "c.v2" "1.0.0"]

/-- Oracle under which `memDotted` resolves fully and is updated. -/
def envDotted : Env := envOf (verInfo "off7" "1.0.0") [updConsumable 6 "newloc.v2" "2.0.0"]

/-- Oracle whose only candidate lacks the `current_entered` timestamp. -/
def envNoStamp : Env := envOf (verInfo "off1" "1.0.0") [updNoStamp "c.v2"]

/-- An ineligible (`can_update = false`) yet consumable candidate. -/
def updIneligible (t : Nat) (loc ver : String) : Update :=
  ⟨some flavBasic, false, some ⟨"consumable", some t⟩, loc, ver⟩

/-- A candidate of a different flavor. -/
def updOtherFlavor (loc : String) : Update :=
  ⟨some ⟨some "other"⟩, true, some ⟨"consumable", some 2⟩, loc, "0.9.0"⟩

/-- A candidate with no `flavor` object at all. -/
def updNoFlavorKey (loc : String) : Update :=
  ⟨none, true, some ⟨"consumable", some 2⟩, loc, "0.5.0"⟩

/-- A response in which a matching candidate is followed by a candidate
whose flavor object lacks a name. -/
def respMixed : List Update := [updConsumable 4 "c.m" "1.0.0", updNoFlavorName "c.bad"]

/-- Oracle returning `respMixed` for update listings. -/
def envMixed : Env := ⟨fun _ => none, fun _ _ _ => some respMixed⟩

/-- A well-formed response with matching, other-flavor and flavorless
candidates. -/
def respOk : List Update :=
  [updConsumable 4 "c.m" "1.0.0", updOtherFlavor "c.o", updNoFlavorKey "c.k"]

/-- Oracle returning `respOk` for update listings. -/
def envOk : Env := ⟨fun _ => none, fun _ _ _ => some respOk⟩

/-- A candidate list whose maximal-timestamp candidate is not consumable. -/
def updsC1 : List Update :=
  [updDeprecated 10 "c.a" "3.0.0", updConsumable 5 "c.b" "2.0.0",
   updConsumable 7 "c.d" "2.5.0"]

/-- A qualifying candidate entered at time 7, earliest of its tie class. -/
def updTieFirst : Update := updConsumable 7 "c.first" "2.0.0"

/-- A qualifying candidate also entered at time 7, later in the input. -/
def updTieSecond : Update := updConsumable 7 "c.second" "2.1.0"

/-- A deprecated candidate with a higher timestamp than the tie class. -/
def updHighDep : Update := updDeprecated 9 "c.dep" "9.0.0"

/-! ## Helper lemmas about the update selector -/

theorem enteredLE_trans (a b c : Update) :
    enteredLE a b → enteredLE b c → enteredLE a c := by
  simp only [enteredLE, decide_eq_true_eq]
  omega

theorem enteredLE_total (a b : Update) : enteredLE a b || enteredLE b a := by
  simp only [enteredLE, Bool.or_eq_true, decide_eq_true_eq]
  omega

/-- On a list sorted descending by `enteredKey`, the first qualifying
element has maximal key among the qualifying elements. -/
theorem find?_qualifies_max :
    ∀ (s : List Update) (u : Update),
      s.Pairwise (fun a b => enteredLE a b = true) →
      s.find? qualifies = some u →
      ∀ v ∈ s, qualifies v = true → enteredKey v ≤ enteredKey u := by
  intro s
  induction s with
  | nil => intro u _ hfind; simp at hfind
  | cons y ys ih =>
    intro u hpair hfind v hv hqv
    by_cases hpy : qualifies y = true
    · rw [List.find?_cons_of_pos _ hpy] at hfind
      cases hfind
      rcases List.mem_cons.mp hv with rfl | hv'
      · exact Nat.le_refl _
      · have := List.rel_of_pairwise_cons hpair hv'
        simpa [enteredLE, decide_eq_true_eq] using this
    · rw [List.find?_cons_of_neg _ hpy] at hfind
      rcases List.mem_cons.mp hv with rfl | hv'
      · exact absurd hqv hpy
      · exact ih u hpair.of_cons hfind v hv' hqv

/-- Stability: the sorted scan returns the first element of the input that
attains the maximal `enteredKey` among qualifying elements. -/
theorem find?_mergeSort_first :
    ∀ (pre : List Update) (a : Update) (post : List Update),
      qualifies a = true →
      (∀ v ∈ pre ++ a :: post, qualifies v = true → enteredKey v ≤ enteredKey a) →
      (∀ v ∈ pre, qualifies v = true → enteredKey v < enteredKey a) →
      ((pre ++ a :: post).mergeSort enteredLE).find? qualifies = some a := by
  intro pre
  induction pre with
  | nil =>
    intro a post hqa hmax _
    obtain ⟨l₁, l₂, h₁, h₂, h₃⟩ :=
      List.mergeSort_cons enteredLE_trans enteredLE_total a post
    simp only [List.nil_append] at *
    rw [h₁, List.find?_append]
    have hl₁ : l₁.find? qualifies = none := by
      rw [List.find?_eq_none]
      intro b hb hqb
      have hbmem : b ∈ post := by
        have : b ∈ post.mergeSort enteredLE := by
          rw [h₂]; exact List.mem_append_left _ hb
        exact List.mem_mergeSort.mp this
      have hble := hmax b (List.mem_cons_of_mem _ hbmem) hqb
      have := h₃ b hb
      simp only [enteredLE, Bool.not_eq_true', decide_eq_false_iff_not] at this
      omega
    rw [hl₁, Option.none_or, List.find?_cons_of_pos _ hqa]
  | cons x pre' ih =>
    intro a post hqa hmax hpre
    obtain ⟨l₁, l₂, h₁, h₂, h₃⟩ :=
      List.mergeSort_cons enteredLE_trans enteredLE_total x (pre' ++ a :: post)
    have ih' : ((pre' ++ a :: post).mergeSort enteredLE).find? qualifies = some a := by
      refine ih a post hqa ?_ ?_
      · intro v hv hqv
        exact hmax v (List.mem_cons_of_mem _ hv) hqv
      · intro v hv hqv
        exact hpre v (List.mem_cons_of_mem _ hv) hqv
    rw [h₂, List.find?_append] at ih'
    rw [show (x :: pre') ++ a :: post = x :: (pre' ++ a :: post) from rfl, h₁,
      List.find?_append]
    by_cases hpx : qualifies x = true
    · have hxa : enteredKey x < enteredKey a := hpre x (List.mem_cons_self _ _) hpx
      have hsorted :
          (l₁ ++ x :: l₂).Pairwise (fun p q => enteredLE p q = true) := by
        have := List.sorted_mergeSort enteredLE_trans enteredLE_total
          (x :: (pre' ++ a :: post))
        rwa [h₁] at this
      have hxl₂ : ∀ c ∈ l₂, enteredKey c ≤ enteredKey x := by
        intro c hc
        have hsub : (x :: l₂).Pairwise (fun p q => enteredLE p q = true) :=
          List.Pairwise.sublist (List.sublist_append_right l₁ (x :: l₂)) hsorted
        have := List.rel_of_pairwise_cons hsub hc
        simpa [enteredLE, decide_eq_true_eq] using this
      cases e₁ : l₁.find? qualifies with
      | some b =>
        rw [e₁] at ih'
        simp only [Option.or_some] at ih'
        cases ih'
        rw [Option.or_some]
      | none =>
        rw [e₁, Option.none_or] at ih'
        have ha₂ : a ∈ l₂ := List.mem_of_find?_eq_some ih'
        have := hxl₂ a ha₂
        omega
    · rw [List.find?_cons_of_neg _ hpx]
      exact ih'

/-- The guard of `get_latest_valid_version` holds iff every candidate
carries a `state.current_entered` value. -/
theorem glvv_of_all_entered {updates : List Update}
    (h : ∀ u ∈ updates, (currentEntered? u).isSome = true) :
    get_latest_valid_version updates =
      (updates.mergeSort enteredLE).find? qualifies := by
  unfold get_latest_valid_version
  rw [if_pos (List.all_eq_true.mpr h)]

/-- Fail closed: a candidate missing the timestamp forces `None`. -/
theorem glvv_none_of_missing {updates : List Update}
    (h : ∃ u ∈ updates, (currentEntered? u).isSome = false) :
    get_latest_valid_version updates = none := by
  unfold get_latest_valid_version
  rw [if_neg]
  intro hall
  obtain ⟨u, hu, hbad⟩ := h
  have := List.all_eq_true.mp hall u hu
  rw [this] at hbad
  cases hbad

/-- No qualifying candidate forces `None`. -/
theorem glvv_none_of_no_qualify {updates : List Update}
    (h : ∀ u ∈ updates, qualifies u = false) :
    get_latest_valid_version updates = none := by
  unfold get_latest_valid_version
  split
  · rw [List.find?_eq_none]
    intro x hx
    rw [h x (List.mem_mergeSort.mp hx)]
    simp
  · rfl

/-- The selected update always qualifies and comes from the input list. -/
theorem glvv_some_spec {updates : List Update} {u : Update}
    (h : get_latest_valid_version updates = some u) :
    u ∈ updates ∧ qualifies u = true := by
  unfold get_latest_valid_version at h
  split at h
  · exact ⟨List.mem_mergeSort.mp (List.mem_of_find?_eq_some h), List.find?_some h⟩
  · cases h

/-- Stability at the level of the selector. -/
theorem glvv_first {pre post : List Update} {a : Update}
    (h_all : ∀ u ∈ pre ++ a :: post, (currentEntered? u).isSome = true)
    (hqa : qualifies a = true)
    (hmax : ∀ v ∈ pre ++ a :: post, qualifies v = true → enteredKey v ≤ enteredKey a)
    (hpre : ∀ v ∈ pre, qualifies v = true → enteredKey v < enteredKey a) :
    get_latest_valid_version (pre ++ a :: post) = some a := by
  rw [glvv_of_all_entered h_all]
  exact find?_mergeSort_first pre a post hqa hmax hpre

/-! ## Helper lemmas about the member pipeline -/

/-- The member loop processes every member, in order, independently:
the final members are the per-member results, `updates_made` is the
disjunction of the per-member flags, and `failures` collects the
per-member messages in member order. -/
theorem runMembers_eq (env : Env) (ms : List Member) :
    runMembers env ms =
      ⟨ms.map (fun m => (processMember env m).1),
       ms.any (fun m => (processMember env m).2.1),
       ms.filterMap (fun m => (processMember env m).2.2)⟩ := by
  induction ms with
  | nil => rfl
  | cons m rest ih =>
    simp only [runMembers, ih, List.map_cons, List.any_cons, List.filterMap_cons]
    cases h : (processMember env m).2.2 <;> simp [h, Option.toList]

/-- If the pipeline reaches the selector and the selector returns `None`,
the member fails with the "latest valid version" message, unmutated. -/
theorem processMember_selector_none {env : Env} {m : Member}
    {catalogId versionId : String} {version : VersionInfo}
    {kind flavor cv : Option String} {updates : List Update}
    (h1 : splitLocator m.version_locator = some (catalogId, versionId))
    (h2 : env.getVersion m.version_locator = some version)
    (h3 : extractDescriptor version = some (kind, flavor, cv))
    (h4 : get_version_updates env version.id catalogId kind flavor = some updates)
    (h5 : get_latest_valid_version updates = none) :
    processMember env m = (m, false, some "Failed to get latest valid version for ") := by
  unfold processMember
  simp only [h1, h2, h3, h4, h5]

/-- If the selector picks a candidate with a locator different from the
member's, the member is mutated to the new locator and the update flag is
set. -/
theorem processMember_updated {env : Env} {m : Member}
    {catalogId versionId : String} {version : VersionInfo}
    {kind flavor cv : Option String} {updates : List Update} {latest : Update}
    (h1 : splitLocator m.version_locator = some (catalogId, versionId))
    (h2 : env.getVersion m.version_locator = some version)
    (h3 : extractDescriptor version = some (kind, flavor, cv))
    (h4 : get_version_updates env version.id catalogId kind flavor = some updates)
    (h5 : get_latest_valid_version updates = some latest)
    (hne : m.version_locator ≠ latest.version_locator) :
    processMember env m =
      ({ m with version_locator := latest.version_locator }, true, none) := by
  unfold processMember
  simp only [h1, h2, h3, h4, h5]
  simp [hne]

/-- If the selector picks a candidate with the member's own locator, the
member is left unchanged and the update flag is not set. -/
theorem processMember_unchanged {env : Env} {m : Member}
    {catalogId versionId : String} {version : VersionInfo}
    {kind flavor cv : Option String} {updates : List Update} {latest : Update}
    (h1 : splitLocator m.version_locator = some (catalogId, versionId))
    (h2 : env.getVersion m.version_locator = some version)
    (h3 : extractDescriptor version = some (kind, flavor, cv))
    (h4 : get_version_updates env version.id catalogId kind flavor = some updates)
    (h5 : get_latest_valid_version updates = some latest)
    (heq : m.version_locator = latest.version_locator) :
    processMember env m = (m, false, none) := by
  unfold processMember
  simp only [h1, h2, h3, h4, h5]
  simp [heq]

/-- A failed member is never mutated and never sets the update flag. -/
theorem processMember_failed_id (env : Env) (m : Member)
    (h : ((processMember env m).2.2).isSome = true) :
    (processMember env m).1 = m ∧ (processMember env m).2.1 = false := by
  unfold processMember at *
  cases h1 : splitLocator m.version_locator with
  | none => simp [h1]
  | some cv =>
    obtain ⟨c, v⟩ := cv
    cases h2 : env.getVersion m.version_locator with
    | none => simp [h1, h2]
    | some version =>
      cases h3 : extractDescriptor version with
      | none => simp [h1, h2, h3]
      | some kfc =>
        obtain ⟨k, f, c'⟩ := kfc
        cases h4 : get_version_updates env version.id c k f with
        | none => simp [h1, h2, h3, h4]
        | some updates =>
          cases h5 : get_latest_valid_version updates with
          | none => simp [h1, h2, h3, h4, h5]
          | some latest =>
            simp only [h1, h2, h3, h4, h5] at h
            by_cases hne : m.version_locator = latest.version_locator
            · simp [hne] at h
            · simp [hne] at h

/-- A member whose locator does not split into exactly two parts fails
with the generic exception message, unmutated. -/
theorem processMember_parse_failed {env : Env} {m : Member}
    (h : splitLocator m.version_locator = none) :
    processMember env m = (m, false, some ("Error updating member " ++ m.name)) := by
  unfold processMember
  simp only [h]

/-! ## The claims -/

/-- C1: on a candidate list in which every candidate carries a
`state.current_entered` value and at least one candidate is eligible
(`can_update`) and consumable, `get_latest_valid_version` returns a
candidate from the list that is eligible and consumable and whose
`state.current_entered` is maximal among all such candidates; and (in
general) a returned candidate is always eligible and consumable. -/
theorem C1_selectLatest_returns_max (updates : List Update)
    (h_all : ∀ u ∈ updates, (currentEntered? u).isSome = true)
    (h_ex : ∃ u ∈ updates, qualifies u = true) :
    (∃ u, get_latest_valid_version updates = some u ∧ u ∈ updates ∧
        qualifies u = true ∧
        ∀ v ∈ updates, qualifies v = true → enteredKey v ≤ enteredKey u) ∧
    (∀ (l : List Update) (u : Update),
        get_latest_valid_version l = some u → qualifies u = true) := by
  refine ⟨?_, fun l u h => (glvv_some_spec h).2⟩
  rw [glvv_of_all_entered h_all]
  have hsome : ((updates.mergeSort enteredLE).find? qualifies).isSome := by
    rw [List.find?_isSome]
    obtain ⟨u, hu, hq⟩ := h_ex
    exact ⟨u, List.mem_mergeSort.mpr hu, hq⟩
  obtain ⟨u, hu⟩ := Option.isSome_iff_exists.mp hsome
  refine ⟨u, hu, List.mem_mergeSort.mp (List.mem_of_find?_eq_some hu),
    List.find?_some hu, ?_⟩
  intro v hv hqv
  exact find?_qualifies_max _ u
    (List.sorted_mergeSort enteredLE_trans enteredLE_total updates) hu v
    (List.mem_mergeSort.mpr hv) hqv

/-- Witness for C1 on a concrete list: the deprecated candidate with the
highest timestamp is skipped and the consumable candidate entered at 7
beats the one entered at 5. -/
theorem C1_selectLatest_returns_max_witness :
    (∀ u ∈ updsC1, (currentEntered? u).isSome = true) ∧
    (∃ u ∈ updsC1, qualifies u = true) ∧
    (∃ u, get_latest_valid_version updsC1 = some u ∧ u ∈ updsC1 ∧
        qualifies u = true ∧
        ∀ v ∈ updsC1, qualifies v = true → enteredKey v ≤ enteredKey u) :=
  ⟨by decide, by decide,
    (C1_selectLatest_returns_max updsC1 (by decide) (by decide)).1⟩

/-- C2: per-member failures are isolated — for any member whose
resolution fails, the run records that member's failure message, the
failure list is exactly the per-member messages in order, and every
member (before and after the failing one) is still processed: the
resulting member list is the pointwise image of the per-member pipeline
over the whole input. -/
theorem C2_member_failures_isolated (env : Env) (pre post : List Member)
    (m : Member) (msg : String)
    (h : (processMember env m).2.2 = some msg) :
    (runMembers env (pre ++ m :: post)).members =
        (pre ++ m :: post).map (fun x => (processMember env x).1) ∧
    (runMembers env (pre ++ m :: post)).failures =
        (pre ++ m :: post).filterMap (fun x => (processMember env x).2.2) ∧
    msg ∈ (runMembers env (pre ++ m :: post)).failures := by
  rw [runMembers_eq]
  refine ⟨rfl, rfl, ?_⟩
  exact List.mem_filterMap.mpr ⟨m, by simp, h⟩

/-- Witness for C2: the first member's version fetch fails, the second
member is still processed. -/
theorem C2_member_failures_isolated_witness :
    (processMember envFail memA).2.2 =
        some "Failed to get version for member-a: c.v1" ∧
    (runMembers envFail [memA, memB]).members =
        [memA, memB].map (fun x => (processMember envFail x).1) ∧
    "Failed to get version for member-a: c.v1" ∈
        (runMembers envFail [memA, memB]).failures := by
  have h := C2_member_failures_isolated envFail [] [memB] memA
    "Failed to get version for member-a: c.v1" (by decide)
  exact ⟨by decide, h.1, h.2.2⟩

/-- C3 counterexample: a member whose only candidate is deprecated (so
the selector finds no eligible-and-consumable entry and returns `None`)
DOES add an entry to the failure list and by itself makes the run exit
with status 1 — the script treats the selector's `None` as a failure
(lines 201–204), not as a normal terminal outcome. -/
theorem C3_cex_no_eligible_is_recorded_failure :
    qualifies (updDeprecated 5 "c.v2" "1.1.0") = false ∧
    runMembers envSelNone [memA] =
      ⟨[memA], false, ["Failed to get latest valid version for "]⟩ ∧
    exitCode (runMembers envSelNone [memA]) = 1 := by
  have h5 : get_latest_valid_version [updDeprecated 5 "c.v2" "1.1.0"] = none :=
    glvv_none_of_no_qualify (by decide)
  have h1 : splitLocator memA.version_locator = some ("c", "v1") := by decide
  have h2 : envSelNone.getVersion memA.version_locator =
      some (verInfo "off1" "1.0.0") := rfl
  have h3 : extractDescriptor (verInfo "off1" "1.0.0") =
      some (some "terraform", some "basic", some "1.0.0") := by decide
  have h4 : get_version_updates envSelNone (verInfo "off1" "1.0.0").id "c"
      (some "terraform") (some "basic") = some [updDeprecated 5 "c.v2" "1.1.0"] := by
    decide
  have hp := processMember_selector_none h1 h2 h3 h4 h5
  have hrun : runMembers envSelNone [memA] =
      ⟨[memA], false, ["Failed to get latest valid version for "]⟩ := by
    rw [runMembers_eq]
    simp [hp]
  exact ⟨by decide, hrun, by rw [hrun]; rfl⟩

/-- C3 (amended): when the Update Selector returns `None` for a member —
in particular when no candidate is eligible-and-consumable — the script
records a per-member failure ("Failed to get latest valid version for
...") and, like any failure, this makes the run exit with status 1; the
no-eligible-update outcome is not distinguished from an error. -/
theorem C3_amended_selector_none_is_failure {env : Env} {m : Member}
    {catalogId versionId : String} {version : VersionInfo}
    {kind flavor cv : Option String} {updates : List Update}
    (h1 : splitLocator m.version_locator = some (catalogId, versionId))
    (h2 : env.getVersion m.version_locator = some version)
    (h3 : extractDescriptor version = some (kind, flavor, cv))
    (h4 : get_version_updates env version.id catalogId kind flavor = some updates)
    (h5 : get_latest_valid_version updates = none) :
    processMember env m = (m, false, some "Failed to get latest valid version for ") ∧
    "Failed to get latest valid version for " ∈ (runMembers env [m]).failures ∧
    exitCode (runMembers env [m]) = 1 := by
  have hp := processMember_selector_none h1 h2 h3 h4 h5
  have hrun : runMembers env [m] =
      ⟨[m], false, ["Failed to get latest valid version for "]⟩ := by
    rw [runMembers_eq]
    simp [hp]
  exact ⟨hp, by rw [hrun]; exact List.mem_singleton.mpr rfl, by rw [hrun]; rfl⟩

/-- Witness for the amended C3, on the same concrete member whose
candidates are all deprecated. -/
theorem C3_amended_selector_none_is_failure_witness :
    processMember envSelNone memA =
      (memA, false, some "Failed to get latest valid version for ") ∧
    "Failed to get latest valid version for " ∈ (runMembers envSelNone [memA]).failures ∧
    exitCode (runMembers envSelNone [memA]) = 1 := by
  have h1 : splitLocator memA.version_locator = some ("c", "v1") := by decide
  have h2 : envSelNone.getVersion memA.version_locator =
      some (verInfo "off1" "1.0.0") := rfl
  have h3 : extractDescriptor (verInfo "off1" "1.0.0") =
      some (some "terraform", some "basic", some "1.0.0") := by decide
  have h4 : get_version_updates envSelNone (verInfo "off1" "1.0.0").id "c"
      (some "terraform") (some "basic") = some [updDeprecated 5 "c.v2" "1.1.0"] := by
    decide
  have h5 : get_latest_valid_version [updDeprecated 5 "c.v2" "1.1.0"] = none :=
    glvv_none_of_no_qualify (by decide)
  exact C3_amended_selector_none_is_failure h1 h2 h3 h4 h5

/-- C4: the updated/unchanged decision compares version locators, not
version strings (the hypotheses put no constraint on the version
strings): if the selected candidate's locator differs from the member's,
the member's locator is set to the new value and the update flag is set;
if the locators are equal the member is left unchanged. -/
theorem C4_compare_by_locator {env : Env} {m : Member}
    {catalogId versionId : String} {version : VersionInfo}
    {kind flavor cv : Option String} {updates : List Update} {latest : Update}
    (h1 : splitLocator m.version_locator = some (catalogId, versionId))
    (h2 : env.getVersion m.version_locator = some version)
    (h3 : extractDescriptor version = some (kind, flavor, cv))
    (h4 : get_version_updates env version.id catalogId kind flavor = some updates)
    (h5 : get_latest_valid_version updates = some latest) :
    (m.version_locator ≠ latest.version_locator →
      processMember env m =
        ({ m with version_locator := latest.version_locator }, true, none)) ∧
    (m.version_locator = latest.version_locator →
      processMember env m = (m, false, none)) :=
  ⟨fun hne => processMember_updated h1 h2 h3 h4 h5 hne,
   fun heq => processMember_unchanged h1 h2 h3 h4 h5 heq⟩

/-- Witness for C4: the selected candidate has the member's exact version
string "1.0.0" but a different locator, and the member is still updated
and the update flag set. -/
theorem C4_compare_by_locator_witness :
    extractDescriptor (verInfo "off1" "1.0.0") =
        some (some "terraform", some "basic", some "1.0.0") ∧
    (updConsumable 5 "c.v2" "1.0.0").version = "1.0.0" ∧
    processMember envSameVer memA =
      ({ memA with version_locator := "c.v2" }, true, none) := by
  have h1 : splitLocator memA.version_locator = some ("c", "v1") := by decide
  have h2 : envSameVer.getVersion memA.version_locator =
      some (verInfo "off1" "1.0.0") := rfl
  have h3 : extractDescriptor (verInfo "off1" "1.0.0") =
      some (some "terraform", some "basic", some "1.0.0") := by decide
  have h4 : get_version_updates envSameVer (verInfo "off1" "1.0.0").id "c"
      (some "terraform") (some "basic") = some [updConsumable 5 "c.v2" "1.0.0"] := by
    decide
  have h5 : get_latest_valid_version [updConsumable 5 "c.v2" "1.0.0"] =
      some (updConsumable 5 "c.v2" "1.0.0") :=
    @glvv_first [] [] (updConsumable 5 "c.v2" "1.0.0")
      (by decide) (by decide) (by decide) (by decide)
  exact ⟨h3, rfl, (C4_compare_by_locator h1 h2 h3 h4 h5).1 (by decide)⟩

/-- C5: on any candidate list — the empty one included — with no
eligible-and-consumable candidate, `get_latest_valid_version` returns
`None`. -/
theorem C5_selectLatest_none (updates : List Update)
    (h : ∀ u ∈ updates, qualifies u = false) :
    get_latest_valid_version updates = none :=
  glvv_none_of_no_qualify h

/-- Witness for C5 on the empty list and on a list holding a deprecated
candidate and an ineligible consumable one. -/
theorem C5_selectLatest_none_witness :
    get_latest_valid_version [] = none ∧
    get_latest_valid_version
      [updDeprecated 5 "c.v2" "1.1.0", updIneligible 9 "c.v3" "2.0.0"] = none :=
  ⟨C5_selectLatest_none [] (by decide),
   C5_selectLatest_none _ (by decide)⟩

/-- C6: a candidate list containing a candidate without a
`state.current_entered` value (or without a `state` object, in which case
`currentEntered?` is also `none`) makes the whole selection fail closed:
the selector returns `None` — no candidate from such a list is ever
selected — and at the member level this is recorded as a failure, not
silently skipped. -/
theorem C6_missing_timestamp_fails_closed {env : Env} {m : Member}
    {catalogId versionId : String} {version : VersionInfo}
    {kind flavor cv : Option String} {updates : List Update}
    (h1 : splitLocator m.version_locator = some (catalogId, versionId))
    (h2 : env.getVersion m.version_locator = some version)
    (h3 : extractDescriptor version = some (kind, flavor, cv))
    (h4 : get_version_updates env version.id catalogId kind flavor = some updates)
    (hbad : ∃ u ∈ updates, (currentEntered? u).isSome = false) :
    get_latest_valid_version updates = none ∧
    processMember env m = (m, false, some "Failed to get latest valid version for ") := by
  have h5 := glvv_none_of_missing hbad
  exact ⟨h5, processMember_selector_none h1 h2 h3 h4 h5⟩

/-- Witness for C6: a single otherwise-perfect consumable candidate that
lacks the timestamp is not selected; the member fails. -/
theorem C6_missing_timestamp_fails_closed_witness :
    get_latest_valid_version [updNoStamp "c.v2"] = none ∧
    processMember envNoStamp memA =
      (memA, false, some "Failed to get latest valid version for ") := by
  have h1 : splitLocator memA.version_locator = some ("c", "v1") := by decide
  have h2 : envNoStamp.getVersion memA.version_locator =
      some (verInfo "off1" "1.0.0") := rfl
  have h3 : extractDescriptor (verInfo "off1" "1.0.0") =
      some (some "terraform", some "basic", some "1.0.0") := by decide
  have h4 : get_version_updates envNoStamp (verInfo "off1" "1.0.0").id "c"
      (some "terraform") (some "basic") = some [updNoStamp "c.v2"] := by decide
  exact C6_missing_timestamp_fails_closed h1 h2 h3 h4 (by decide)

/-- C7 counterexample: the claim requires two NON-EMPTY parts, but the
script only checks the arity of the split.  The locator "cat123." splits
into the two parts ("cat123", ""), the second empty, and is accepted:
under an oracle that resolves it, the member is fully processed and even
updated, with no parse failure recorded. -/
theorem C7_cex_empty_part_accepted :
    splitLocator "cat123." = some ("cat123", "") ∧
    processMember envDotted memDotted =
      ({ memDotted with version_locator := "newloc.v2" }, true, none) := by
  refine ⟨by decide, ?_⟩
  have h1 : splitLocator memDotted.version_locator = some ("cat123", "") := by decide
  have h2 : envDotted.getVersion memDotted.version_locator =
      some (verInfo "off7" "1.0.0") := rfl
  have h3 : extractDescriptor (verInfo "off7" "1.0.0") =
      some (some "terraform", some "basic", some "1.0.0") := by decide
  have h4 : get_version_updates envDotted (verInfo "off7" "1.0.0").id "cat123"
      (some "terraform") (some "basic") =
        some [updConsumable 6 "newloc.v2" "2.0.0"] := by decide
  have h5 : get_latest_valid_version [updConsumable 6 "newloc.v2" "2.0.0"] =
      some (updConsumable 6 "newloc.v2" "2.0.0") :=
    @glvv_first [] [] (updConsumable 6 "newloc.v2" "2.0.0")
      (by decide) (by decide) (by decide) (by decide)
  exact processMember_updated h1 h2 h3 h4 h5 (by decide)

/-- C7 (amended): parsing splits the locator on "." and succeeds exactly
when the split yields two parts — which may be empty:
"cat123.ver456" parses to ("cat123", "ver456"), and a locator whose
split does not yield exactly two parts (e.g. "malformed", with no
separator) is a hard per-member error, recorded as a failure while the
remaining members are still processed. -/
theorem C7_amended_locator_split :
    splitLocator "cat123.ver456" = some ("cat123", "ver456") ∧
    (∀ (s a b : String), splitLocator s = some (a, b) ↔ splitDots s = [a, b]) ∧
    (∀ (env : Env) (m : Member) (pre post : List Member),
      splitLocator m.version_locator = none →
      processMember env m = (m, false, some ("Error updating member " ++ m.name)) ∧
      (runMembers env (pre ++ m :: post)).members =
        (pre ++ m :: post).map (fun x => (processMember env x).1) ∧
      ("Error updating member " ++ m.name) ∈
        (runMembers env (pre ++ m :: post)).failures) := by
  refine ⟨by decide, ?_, ?_⟩
  · intro s a b
    unfold splitLocator
    rcases e : splitDots s with _ | ⟨x, _ | ⟨y, _ | ⟨z, rest⟩⟩⟩ <;> simp
  · intro env m pre post h
    have hp := @processMember_parse_failed env m h
    refine ⟨hp, ?_, ?_⟩
    · rw [runMembers_eq]
    · rw [runMembers_eq]
      exact List.mem_filterMap.mpr ⟨m, by simp, by rw [hp]⟩

/-- Witness for the amended C7: the separator-free locator "malformed"
is a recorded per-member failure and the next member is still processed. -/
theorem C7_amended_locator_split_witness :
    (splitLocator "cat123.ver456" = some ("cat123", "ver456")) ∧
    processMember envFail memBad =
      (memBad, false, some ("Error updating member " ++ memBad.name)) ∧
    (runMembers envFail [memBad, memA]).members =
      [memBad, memA].map (fun x => (processMember envFail x).1) ∧
    ("Error updating member " ++ memBad.name) ∈
      (runMembers envFail [memBad, memA]).failures := by
  have h := C7_amended_locator_split
  have h3 := h.2.2 envFail memBad [] [memA] (by decide)
  exact ⟨h.1, h3.1, h3.2.1, h3.2.2⟩

/-- C8 counterexample: the response holds a candidate whose flavor name
equals the requested flavor, yet because a later candidate's flavor
object lacks the "name" key, the whole call returns `None` (the
comprehension's KeyError is caught at call level) — the malformed
candidate is not excluded individually and the matching candidate is
lost. -/
theorem C8_cex_missing_name_fails_whole_call :
    flavorMatches (some "basic") (updConsumable 4 "c.m" "1.0.0") = true ∧
    (updConsumable 4 "c.m" "1.0.0") ∈ respMixed ∧
    get_version_updates envMixed "off" "cat" (some "terraform") (some "basic") =
      none := by decide

/-- C8 (amended): when every candidate that has a flavor object also has
a name in it, `get_version_updates` returns exactly the candidates whose
flavor name equals the requested flavor — candidates with a missing
flavor object or a non-matching name are excluded individually; but if
any candidate's flavor object lacks a name, the whole call fails,
returning `None`. -/
theorem C8_amended_flavor_filter (env : Env) (offeringId catalogId : String)
    (kind flavor : Option String) (resp : List Update)
    (hresp : env.getOfferingUpdates catalogId offeringId kind = some resp) :
    ((∀ u ∈ resp, flavorAccessOk u = true) →
      get_version_updates env offeringId catalogId kind flavor =
        some (resp.filter (flavorMatches flavor)) ∧
      ∀ u : Update,
        u ∈ resp.filter (flavorMatches flavor) ↔
          u ∈ resp ∧ flavorMatches flavor u = true) ∧
    ((∃ u ∈ resp, flavorAccessOk u = false) →
      get_version_updates env offeringId catalogId kind flavor = none) := by
  have hbase : get_version_updates env offeringId catalogId kind flavor =
      (if resp.all flavorAccessOk then
        some (resp.filter (flavorMatches flavor)) else none) := by
    unfold get_version_updates
    rw [hresp]
  constructor
  · intro hok
    rw [hbase, if_pos (List.all_eq_true.mpr hok)]
    exact ⟨rfl, fun u => List.mem_filter⟩
  · intro hbad
    rw [hbase, if_neg]
    intro hall
    obtain ⟨u, hu, hb⟩ := hbad
    rw [List.all_eq_true.mp hall u hu] at hb
    cases hb

/-- Witness for the amended C8: on a well-formed response, only the
"basic"-flavored candidate survives; the other-flavor and flavorless
candidates are dropped individually. -/
theorem C8_amended_flavor_filter_witness :
    get_version_updates envOk "off" "cat" (some "terraform") (some "basic") =
      some [updConsumable 4 "c.m" "1.0.0"] ∧
    ((updConsumable 4 "c.m" "1.0.0") ∈ respOk.filter (flavorMatches (some "basic")) ↔
      (updConsumable 4 "c.m" "1.0.0") ∈ respOk ∧
        flavorMatches (some "basic") (updConsumable 4 "c.m" "1.0.0") = true) := by
  have h := (C8_amended_flavor_filter envOk "off" "cat" (some "terraform")
    (some "basic") respOk rfl).1 (by decide)
  exact ⟨h.1, h.2 (updConsumable 4 "c.m" "1.0.0")⟩

/-- C9: a member whose resolution ends in a failure (a failure message is
produced, whatever the stage or reason) is returned exactly as it was —
no field is changed — and it does not set the update flag. -/
theorem C9_no_mutation_on_failure (env : Env) (m : Member)
    (h : ((processMember env m).2.2).isSome = true) :
    (processMember env m).1 = m ∧ (processMember env m).2.1 = false :=
  processMember_failed_id env m h

/-- Witness for C9: the member whose version fetch fails comes back
bit-for-bit identical, extra fields included. -/
theorem C9_no_mutation_on_failure_witness :
    ((processMember envFail memA).2.2).isSome = true ∧
    (processMember envFail memA).1 = memA ∧
    (processMember envFail memA).2.1 = false :=
  ⟨by decide, C9_no_mutation_on_failure envFail memA (by decide)⟩

/-- C10: the descending sort is stable, so among qualifying candidates
sharing the maximal `state.current_entered` the selector returns the one
appearing earliest in the input list: whenever the input decomposes as
`pre ++ a :: post` with `a` eligible-and-consumable, maximal, and
strictly above every qualifying candidate of `pre`, the result is
exactly `a` — a deterministic function of the input list and its order. -/
theorem C10_tie_break_stable (pre post : List Update) (a : Update)
    (h_all : ∀ u ∈ pre ++ a :: post, (currentEntered? u).isSome = true)
    (hqa : qualifies a = true)
    (hmax : ∀ v ∈ pre ++ a :: post, qualifies v = true → enteredKey v ≤ enteredKey a)
    (hpre : ∀ v ∈ pre, qualifies v = true → enteredKey v < enteredKey a) :
    get_latest_valid_version (pre ++ a :: post) = some a :=
  glvv_first h_all hqa hmax hpre

/-- Witness for C10: two qualifying candidates tie at timestamp 7 behind
a deprecated candidate at 9; the earlier of the tied pair is selected. -/
theorem C10_tie_break_stable_witness :
    enteredKey updTieFirst = enteredKey updTieSecond ∧
    qualifies updTieFirst = true ∧ qualifies updTieSecond = true ∧
    get_latest_valid_version [updHighDep, updTieFirst, updTieSecond] =
      some updTieFirst :=
  ⟨by decide, by decide, by decide,
    C10_tie_break_stable [updHighDep] [updTieSecond] updTieFirst
      (by decide) (by decide) (by decide) (by decide)⟩
